import Mathlib

/-!
Verification of the connection-details HTTP service (src/app.go) against its
specification.  The Go program is embedded shallowly: every call the handler
makes into the operating system, the network stack, the GeoIP library or the
JSON encoder is represented by a field of an explicit environment record, so
that the handler itself becomes a pure function of the request and that
environment.  Machine behaviour that the Go standard library fixes (ServeMux
pattern matching, `strings.Split`, `Header.Get`, map assignment) is embedded
by definitions that follow the documented semantics of those functions.
-/

set_option autoImplicit false

namespace ConnApp

/-- Request sub-record of `ConnectionDetails` (src/app.go lines 19-26).
Field defaults are the Go zero values. -/
structure RequestDetails where
  remoteAddr : String := ""
  host : String := ""
  method : String := ""
  userAgent : String := ""
  forwardedFor : String := ""
  headers : List (String × String) := []

/-- Server sub-record of `ConnectionDetails` (lines 28-32). -/
structure ServerDetails where
  hostname : String := ""
  serverIP : String := ""
  interfaces : List (String × String) := []

/-- IPInfo sub-record of `ConnectionDetails` (lines 34-43). -/
structure IPInfo where
  publicIP : String := ""
  countryCode : String := ""
  country : String := ""
  city : String := ""
  latitude : Float := 0.0
  longitude : Float := 0.0
  organization : String := ""
  postalCode : String := ""

/-- OS sub-record of `ConnectionDetails.System` (lines 46-52). -/
structure OSInfo where
  platform : String := ""
  arch : String := ""
  goVersion : String := ""
  cpuNum : Nat := 0
  memory : String := ""

/-- System sub-record of `ConnectionDetails` (lines 45-53). -/
structure SystemInfo where
  os : OSInfo := {}

/-- The aggregate record the handler builds and serializes (lines 18-54). -/
structure ConnectionDetails where
  request : RequestDetails := {}
  server : ServerDetails := {}
  ipInfo : IPInfo := {}
  system : SystemInfo := {}

/-- First-match association-list lookup with string keys.  Go map reads are
modelled by this lookup; the maps the program builds have distinct keys, so
the order of entries is irrelevant to lookups. -/
def lookupA {β : Type} : List (String × β) → String → Option β
  | [], _ => none
  | p :: rest, q => if q = p.1 then some p.2 else lookupA rest q

/-- An incoming request as the handler sees it: net/http has already parsed
the header block into a map from canonicalized header name to the ordered
list of that header's values (`r.Header`), and `RemoteAddr` is the remote
socket address in host:port form. -/
structure HttpRequest where
  remoteAddr : String := ""
  host : String := ""
  method : String := ""
  headers : List (String × List String) := []

/-- Models `r.Header.Get(k)` — the first value of the named header, or the
empty string when the header is absent or has no values. -/
def headerGet (r : HttpRequest) (k : String) : String :=
  match lookupA r.headers k with
  | some vs => vs.headD ""
  | none => ""

/-- One entry of `net.Interfaces()`: the interface name together with the
outcome of calling `iface.Addrs()` on it (each address rendered by
`addr.String()`). -/
structure Iface where
  name : String
  addrsRes : Except String (List String)

/-- Go map assignment `m[k] = v` on an association list: replace the existing
entry for `k`, or add one.  (Go map iteration order is unspecified, so the
position of entries is a modelling choice; lookups are unaffected.) -/
def mapInsert : List (String × String) → String → String → List (String × String)
  | [], k, v => [(k, v)]
  | p :: rest, k, v => if p.1 = k then (k, v) :: rest else p :: mapInsert rest k v

/-- The body of the outer loop of `getNetworkInterfaces` (lines 63-71): on an
`Addrs()` failure the interface is skipped (`continue`); otherwise every
address is written to `interfaces[iface.Name]` in turn. -/
def processIface (m : List (String × String)) (i : Iface) : List (String × String) :=
  match i.addrsRes with
  | .error _ => m
  | .ok addrs => addrs.foldl (fun m2 a => mapInsert m2 i.name a) m

/-- Function `getNetworkInterfaces` (lines 56-73): an error from `net.Interfaces()`
returns the empty map; otherwise the nested loops run. -/
def getNetworkInterfaces (res : Except String (List Iface)) : List (String × String) :=
  match res with
  | .error _ => []
  | .ok ifaces => ifaces.foldl processIface []

/-- The map entry the nested loops leave for an interface: its last
enumerated address, or nothing when `Addrs()` failed or returned no
addresses. -/
def ifaceEntry (i : Iface) : Option String :=
  match i.addrsRes with
  | .ok addrs => addrs.getLast?
  | .error _ => none

/-- One element of `net.InterfaceAddrs()`: whether its dynamic type is
`*net.IPNet`, whether `IP.IsLoopback()` holds, whether `IP.To4()` is non-nil,
and the rendering `IP.String()`. -/
structure IfAddr where
  isIPNet : Bool
  isLoopback : Bool
  isIPv4 : Bool
  ipStr : String

/-- The server-IP loop of the handler (lines 135-142): take the first
address that is an `*net.IPNet`, not loopback, and IPv4, then `break`. -/
def serverIPScan : List IfAddr → String
  | [] => ""
  | a :: rest =>
    if a.isIPNet && !a.isLoopback && a.isIPv4 then a.ipStr else serverIPScan rest

/-- Lines 134-142 as a whole: `net.InterfaceAddrs()` failure leaves the
address slice nil, so the loop body never runs and `ServerIP` stays `""`. -/
def serverIPOf (res : Except String (List IfAddr)) : String :=
  match res with
  | .error _ => ""
  | .ok l => serverIPScan l

/-- The fields read from a successful `db.City(ip)` record (lines 101-106):
`Country.IsoCode`, `Country.Names["en"]`, `City.Names["en"]`,
`Location.Latitude`, `Location.Longitude`, `Postal.Code`. -/
structure CityRecord where
  countryIsoCode : String := ""
  countryNameEn : String := ""
  cityNameEn : String := ""
  latitude : Float := 0.0
  longitude : Float := 0.0
  postalCode : String := ""

/-- An opened GeoIP database: the lookup `db.City` on a parsed address. -/
structure GeoDB where
  city : String → Except String CityRecord

/-- The external facts `getPublicIPInfo` consults: the outcome of
`geoip2.Open("GeoLite2-City.mmdb")` and the behaviour of `net.ParseIP`
(`none` models a nil result). -/
structure GeoEnv where
  openRes : Except String GeoDB
  parseIP : String → Option String

/-- Function `getPublicIPInfo` (lines 75-109): start from the zero record with
`PublicIP` set to the raw input; return it unchanged on database-open
failure, parse failure, or lookup error; on success fill in the six
geographic fields.  `Organization` is never assigned. -/
def getPublicIPInfo (genv : GeoEnv) (ip : String) : ConnectionDetails :=
  let details : ConnectionDetails := { ipInfo := { publicIP := ip } }
  match genv.openRes with
  | .error _ => details
  | .ok db =>
    match genv.parseIP ip with
    | none => details
    | some parsed =>
      match db.city parsed with
      | .error _ => details
      | .ok record =>
        { details with ipInfo := { details.ipInfo with
            countryCode := record.countryIsoCode
            country := record.countryNameEn
            city := record.cityNameEn
            latitude := record.latitude
            longitude := record.longitude
            postalCode := record.postalCode } }

/-- Helper for `strContains`: does `needle` start at some position of the
haystack? -/
def containsAux (needle : List Char) : List Char → Bool
  | [] => needle.isEmpty
  | x :: xs => needle.isPrefixOf (x :: xs) || containsAux needle xs

/-- Models `strings.Contains(s, sub)`: `sub` occurs contiguously in `s`. -/
def strContains (s sub : String) : Bool :=
  containsAux sub.toList s.toList

/-- Models `strings.Split` for a one-character separator, on the character
list: splitting always yields at least one (possibly empty) piece. -/
def goSplitChar (c : Char) : List Char → List (List Char)
  | [] => [[]]
  | x :: xs =>
    if x = c then [] :: goSplitChar c xs
    else
      match goSplitChar c xs with
      | [] => [[x]]
      | g :: gs => (x :: g) :: gs

/-- Models `strings.Split(s, ":")[0]` as applied to `r.RemoteAddr` (line 158). -/
def splitColonHead (s : String) : String :=
  String.mk ((goSplitChar ':' s.toList).headD [])

/-- Lines 156-160: the IP string handed to `getPublicIPInfo` — the raw
`X-Forwarded-For` value, or, when that is empty, `Split(RemoteAddr, ":")[0]`. -/
def callerIP (r : HttpRequest) : String :=
  let ip := headerGet r "X-Forwarded-For"
  if ip = "" then splitColonHead r.remoteAddr else ip

/-- Lines 123-126: flatten `r.Header` into a string-to-string map, joining
each value list with ";". -/
def flattenHeaders (hs : List (String × List String)) : List (String × String) :=
  hs.map (fun p => (p.1, String.intercalate ";" p.2))

/-- Everything the handler obtains from outside the request: the outcomes of
`os.Hostname`, `net.Interfaces`, `net.InterfaceAddrs`, the GeoIP facts, the
`runtime` constants, the humanized `m.Sys` figure, and the two JSON
renderings (`json.Encoder.Encode` and `json.MarshalIndent`). -/
structure Env where
  hostnameRes : Except String String
  ifacesRes : Except String (List Iface)
  ifaceAddrsRes : Except String (List IfAddr)
  geo : GeoEnv
  goos : String
  goarch : String
  goVersion : String
  numCPU : Nat
  memSysStr : String
  encodeJSON : ConnectionDetails → String
  encodeJSONIndent : ConnectionDetails → String

/-- Lines 113-161: the `ConnectionDetails` value the handler assembles.
`os.Hostname` returns the empty string alongside its error, and the error is
discarded (line 129). -/
def buildDetails (env : Env) (r : HttpRequest) : ConnectionDetails :=
  { request := {
      remoteAddr := r.remoteAddr
      host := r.host
      method := r.method
      userAgent := headerGet r "User-Agent"
      forwardedFor := headerGet r "X-Forwarded-For"
      headers := flattenHeaders r.headers }
    server := {
      hostname := match env.hostnameRes with
        | .ok h => h
        | .error _ => ""
      serverIP := serverIPOf env.ifaceAddrsRes
      interfaces := getNetworkInterfaces env.ifacesRes }
    ipInfo := (getPublicIPInfo env.geo (callerIP r)).ipInfo
    system := { os := {
      platform := env.goos
      arch := env.goarch
      goVersion := env.goVersion
      cpuNum := env.numCPU
      memory := env.memSysStr } } }

/-- The response the handler writes: net/http sends status 200 implicitly on
the first body write because the handler never calls `WriteHeader`. -/
structure HttpResponse where
  status : Nat
  contentType : String
  body : String

/-- Lines 164-166: the content-negotiation condition. -/
def isJSONRequest (r : HttpRequest) : Bool :=
  strContains (headerGet r "Accept") "application/json" ||
    strContains (headerGet r "User-Agent") "curl"

/-- The HTML template (lines 176-190) up to and including its `<pre>` tag,
i.e. everything before the `%s` verb. -/
def htmlTemplateBefore : String :=
  "\n\t<!DOCTYPE html>\n\t<html>\n\t<head>\n\t\t<title>Connection Details</title>\n\t\t<style>\n\t\t\tbody \x7b font-family: Arial, sans-serif; max-width: 900px; margin: 0 auto; padding: 20px; \x7d\n\t\t\tpre \x7b background-color: #f4f4f4; padding: 15px; border-radius: 5px; white-space: pre-wrap; word-wrap: break-word; \x7d\n\t\t</style>\n\t</head>\n\t<body>\n\t\t<h1>Connection Details</h1>\n\t\t<pre>"

/-- The HTML template from its `</pre>` tag on, i.e. everything after `%s`. -/
def htmlTemplateAfter : String := "</pre>\n\t</body>\n\t</html>"

/-- Line 193: `fmt.Fprintf(w, htmlTemplate, jsonOutput)` substitutes the
indented JSON at the template's single `%s` verb. -/
def htmlPage (jsonOutput : String) : String :=
  htmlTemplateBefore ++ jsonOutput ++ htmlTemplateAfter

/-- Function `connectionHandler` (lines 111-194) as a pure function of the request
and the environment. -/
def connectionHandler (env : Env) (r : HttpRequest) : HttpResponse :=
  let details := buildDetails env r
  if isJSONRequest r then
    { status := 200, contentType := "application/json", body := env.encodeJSON details }
  else
    { status := 200, contentType := "text/html", body := htmlPage (env.encodeJSONIndent details) }

/-- ServeMux path matching as net/http defines it: a registered pattern
ending in a slash matches every path it prefixes (a rooted subtree);
any other pattern matches its path exactly. -/
def patternMatches (pat path : String) : Bool :=
  if pat.toList.getLast? = some '/' then pat.toList.isPrefixOf path.toList else path = pat

/-- Function `main` (line 202) registers the single pattern "/" via
`http.HandleFunc`, which places no restriction on the request method, so a
(method, path) pair reaches `connectionHandler` exactly when the path
matches the pattern "/". -/
def servesRequest (method path : String) : Bool :=
  patternMatches "/" path

/-- Follows the spec's words (C3): the remote socket address stripped of its
port, i.e. the characters before the final colon. -/
def stripPortSpec (addr : String) : String :=
  String.mk (((addr.toList.reverse.dropWhile (fun ch => ch != ':')).drop 1).reverse)

/-- Follows the spec's words (C3): the raw forwarded-for value when
non-empty, otherwise the socket address stripped of its port. -/
def callerIPSpec (r : HttpRequest) : String :=
  let ip := headerGet r "X-Forwarded-For"
  if ip = "" then stripPortSpec r.remoteAddr else ip

/-- The prefix of a string before its first colon (what
`strings.Split(s, ":")[0]` actually yields). -/
def beforeFirstColon (s : String) : String :=
  String.mk (s.toList.takeWhile (fun ch => ch != ':'))

/-- Remove every entry of the named header, for comparing a request that
carries the header against the same request without it. -/
def removeHdr (hs : List (String × List String)) (k : String) : List (String × List String) :=
  hs.filter (fun p => p.1 != k)

/-- A concrete environment in which every external call fails and the JSON
encoders are fixed placeholder renderings; used to instantiate theorems on
closed inputs. -/
def envClosed : Env :=
  { hostnameRes := .error "hostname failed"
    ifacesRes := .error "interfaces failed"
    ifaceAddrsRes := .error "interface addrs failed"
    geo := { openRes := .error "no database", parseIP := fun _ => none }
    goos := "linux"
    goarch := "amd64"
    goVersion := "go1.21.0"
    numCPU := 4
    memSysStr := "12 MB"
    encodeJSON := fun _ => "json-body"
    encodeJSONIndent := fun _ => "indented-json" }

/-- A concrete browser-style request (no JSON Accept value, no curl agent). -/
def reqHtml : HttpRequest :=
  { remoteAddr := "203.0.113.7:50000"
    host := "example.test"
    method := "GET"
    headers := [("Accept", ["text/html"]), ("User-Agent", ["Mozilla/5.0"])] }

/-- A concrete request arriving over IPv6 loopback, with no forwarded-for
header. -/
def reqV6 : HttpRequest :=
  { remoteAddr := "[::1]:8080"
    host := "example.test"
    method := "GET"
    headers := [] }

/-- A concrete request whose X-Forwarded-For header is present but empty. -/
def reqXffEmpty : HttpRequest :=
  { remoteAddr := "198.51.100.9:1234"
    host := "example.test"
    method := "GET"
    headers := [("X-Forwarded-For", [""]), ("Accept", ["text/html"])] }

/-- A concrete request carrying a multi-valued header. -/
def reqHdrs : HttpRequest :=
  { remoteAddr := "203.0.113.7:50000"
    host := "example.test"
    method := "GET"
    headers := [("Accept", ["text/html", "application/xml"]), ("X-Custom", ["a", "b"])] }

/-- A concrete interface with two addresses. -/
def ifaceEth : Iface := { name := "eth0", addrsRes := .ok ["10.0.0.5/24", "fe80::1/64"] }

/-- A concrete interface whose address enumeration fails. -/
def ifaceBad : Iface := { name := "wlan0", addrsRes := .error "addrs failed" }

/-- A concrete interface list. -/
def ifaceList : List Iface := [ifaceEth, ifaceBad]

/-- Concrete interface addresses: loopback first, then a non-IPv4 entry,
then the first qualifying IPv4 address. -/
def ifAddrList : List IfAddr :=
  [ { isIPNet := true, isLoopback := true, isIPv4 := true, ipStr := "127.0.0.1" },
    { isIPNet := true, isLoopback := false, isIPv4 := false, ipStr := "fe80::1" },
    { isIPNet := true, isLoopback := false, isIPv4 := true, ipStr := "192.168.1.50" } ]

/-! Helper lemmas shared by the claim theorems. -/

/-- Every path through `getPublicIPInfo` leaves the raw input in `publicIP`. -/
theorem getPublicIPInfo_publicIP (genv : GeoEnv) (ip : String) :
    (getPublicIPInfo genv ip).ipInfo.publicIP = ip := by
  rcases h1 : genv.openRes with e | db
  · simp [getPublicIPInfo, h1]
  · rcases h2 : genv.parseIP ip with _ | parsed
    · simp [getPublicIPInfo, h1, h2]
    · rcases h3 : db.city parsed with e | record
      · simp [getPublicIPInfo, h1, h2, h3]
      · simp [getPublicIPInfo, h1, h2, h3]

/-- Lookup after a map assignment: the assigned key reads the new value and
every other key is untouched. -/
theorem lookupA_mapInsert (m : List (String × String)) (k v q : String) :
    lookupA (mapInsert m k v) q = if q = k then some v else lookupA m q := by
  induction m with
  | nil => simp [mapInsert, lookupA]
  | cons p rest ih =>
    by_cases h : p.1 = k
    · by_cases hq : q = k
      · simp [mapInsert, h, lookupA, hq]
      · have hq2 : ¬q = p.1 := by rw [h]; exact hq
        simp [mapInsert, h, lookupA, hq, hq2]
    · by_cases hq : q = p.1
      · have hq2 : ¬q = k := by rw [hq]; exact h
        simp [mapInsert, h, lookupA, hq, hq2]
      · simp [mapInsert, h, lookupA, hq, ih]

/-- Lookup after the inner address loop: the interface's key holds the last
address written, other keys are untouched. -/
theorem lookupA_foldl_insert (name : String) (addrs : List String)
    (m : List (String × String)) (q : String) :
    lookupA (addrs.foldl (fun m2 a => mapInsert m2 name a) m) q =
      (match addrs.getLast? with
       | some v => if q = name then some v else lookupA m q
       | none => lookupA m q) := by
  induction addrs generalizing m with
  | nil => rfl
  | cons a as ih =>
    rw [List.foldl_cons, ih]
    cases as with
    | nil => simp [lookupA_mapInsert]
    | cons b bs =>
      rcases hg : (b :: bs).getLast? with _ | v
      · simp at hg
      · rw [List.getLast?_cons_cons, hg]
        by_cases hq : q = name <;> simp [hq, lookupA_mapInsert]

/-- Lookup after processing one interface, phrased through `ifaceEntry`. -/
theorem lookupA_processIface (m : List (String × String)) (i : Iface) (q : String) :
    lookupA (processIface m i) q =
      (match ifaceEntry i with
       | some v => if q = i.name then some v else lookupA m q
       | none => lookupA m q) := by
  unfold processIface ifaceEntry
  rcases h : i.addrsRes with e | addrs
  · rfl
  · rw [lookupA_foldl_insert]

/-- Interfaces whose names differ from `q` never change the entry at `q`. -/
theorem lookupA_foldl_process_untouched (l : List Iface) (m : List (String × String))
    (q : String) (hq : ∀ i ∈ l, i.name ≠ q) :
    lookupA (l.foldl processIface m) q = lookupA m q := by
  induction l generalizing m with
  | nil => rfl
  | cons j rest ih =>
    rw [List.foldl_cons, ih _ (fun i hi => hq i (List.mem_cons_of_mem _ hi))]
    rw [lookupA_processIface]
    have hj : q ≠ j.name := fun hh => hq j (List.mem_cons_self _ _) hh.symm
    rcases h : ifaceEntry j with _ | v
    · rfl
    · simp [hj]

/-- With pairwise-distinct names, the final entry for a member interface is
exactly `ifaceEntry` of it (falling back to the initial map when empty). -/
theorem lookupA_foldl_process_mem (l : List Iface) (m : List (String × String))
    (i : Iface) (hp : l.Pairwise (fun a b => a.name ≠ b.name)) (hi : i ∈ l) :
    lookupA (l.foldl processIface m) i.name =
      (match ifaceEntry i with
       | some v => some v
       | none => lookupA m i.name) := by
  induction l generalizing m with
  | nil => cases hi
  | cons j rest ih =>
    rw [List.foldl_cons]
    rcases List.mem_cons.mp hi with heq | hmem
    · subst heq
      have hrest : ∀ i2 ∈ rest, i2.name ≠ i.name := by
        intro i2 h2
        exact fun hh => (List.pairwise_cons.mp hp).1 i2 h2 hh.symm
      rw [lookupA_foldl_process_untouched rest _ i.name hrest]
      rw [lookupA_processIface]
      rcases h : ifaceEntry i with _ | v <;> simp
    · have hj : i.name ≠ j.name := fun hh => (List.pairwise_cons.mp hp).1 i hmem hh.symm
      rw [ih _ (List.pairwise_cons.mp hp).2 hmem]
      rcases h : ifaceEntry i with _ | v
      · rw [lookupA_processIface]
        rcases h2 : ifaceEntry j with _ | v2
        · rfl
        · simp [hj]
      · rfl

/-- Splitting never yields the empty list of pieces. -/
theorem goSplitChar_ne_nil (c : Char) (l : List Char) : goSplitChar c l ≠ [] := by
  cases l with
  | nil => simp [goSplitChar]
  | cons x xs =>
    simp only [goSplitChar]
    split
    · simp
    · split
      · simp
      · simp

/-- The first piece of the split is the prefix before the first separator. -/
theorem goSplitChar_headD (c : Char) (l : List Char) :
    (goSplitChar c l).headD [] = l.takeWhile (fun x => x != c) := by
  induction l with
  | nil => rfl
  | cons x xs ih =>
    by_cases h : x = c
    · subst h
      simp [goSplitChar, List.takeWhile_cons]
    · have hne : goSplitChar c xs ≠ [] := goSplitChar_ne_nil c xs
      rcases hg : goSplitChar c xs with _ | ⟨g, gs⟩
      · exact absurd hg hne
      · have hb : (x != c) = true := by simp [h]
        simp only [goSplitChar, h, if_false, hg, List.takeWhile_cons, hb, if_true]
        rw [← ih, hg]
        rfl

/-- On strings: `Split(s, ":")[0]` is the prefix of `s` before the first
colon. -/
theorem splitColonHead_eq (s : String) : splitColonHead s = beforeFirstColon s := by
  unfold splitColonHead beforeFirstColon
  rw [goSplitChar_headD]

/-- Lookup in the flattened header map, for distinct keys. -/
theorem flattenHeaders_lookup (hs : List (String × List String)) (k : String)
    (vs : List String) (hd : hs.Pairwise (fun a b => a.1 ≠ b.1)) (hm : (k, vs) ∈ hs) :
    lookupA (flattenHeaders hs) k = some (String.intercalate ";" vs) := by
  induction hs with
  | nil => cases hm
  | cons p rest ih =>
    rcases List.mem_cons.mp hm with heq | hmem
    · rw [← heq]
      simp [flattenHeaders, lookupA]
    · have hk : ¬k = p.1 := by
        have h2 := (List.pairwise_cons.mp hd).1 (k, vs) hmem
        exact fun hh => h2 hh.symm
      simp only [flattenHeaders, List.map_cons, lookupA, hk, if_false]
      exact ih (List.pairwise_cons.mp hd).2 hmem

/-- Filtering out a header key makes its lookup miss. -/
theorem lookupA_removeHdr (hs : List (String × List String)) (k : String) :
    lookupA (removeHdr hs k) k = none := by
  induction hs with
  | nil => rfl
  | cons p rest ih =>
    by_cases h : p.1 = k
    · simp [removeHdr, List.filter_cons, h] at ih ⊢
      exact ih
    · have hk : ¬k = p.1 := fun hh => h hh.symm
      simp [removeHdr, List.filter_cons, h, lookupA, hk] at ih ⊢
      exact ih

/-- The server-IP loop is the first-match search over the address list, once
every entry is known to be an `*net.IPNet`. -/
theorem serverIPScan_eq_find (l : List IfAddr) (h : ∀ a ∈ l, a.isIPNet = true) :
    serverIPScan l = ((l.find? (fun a => !a.isLoopback && a.isIPv4)).map IfAddr.ipStr).getD "" := by
  induction l with
  | nil => rfl
  | cons a as ih =>
    have ha : a.isIPNet = true := h a (List.mem_cons_self _ _)
    by_cases hc : (!a.isLoopback && a.isIPv4) = true
    · have hcond : (a.isIPNet && !a.isLoopback && a.isIPv4) = true := by
        rw [ha]; simpa using hc
      simp [serverIPScan, hcond, List.find?_cons, hc]
    · have hc2 : (!a.isLoopback && a.isIPv4) = false := by
        cases hx : (!a.isLoopback && a.isIPv4) with
        | false => rfl
        | true => exact absurd hx hc
      have hcond : (a.isIPNet && !a.isLoopback && a.isIPv4) = false := by
        rw [ha]; simpa using hc2
      simp only [serverIPScan, hcond, List.find?_cons, hc2, cond_false, Bool.false_eq_true,
        if_false]
      exact ih (fun a2 h2 => h a2 (List.mem_cons_of_mem _ h2))

/-! Claim theorems. -/

/-- C1: every request is answered with HTTP status 200 and a best-effort
ConnectionReport body — over every environment outcome (hostname failure,
interface-enumeration failure, geo-database failure, unparsable caller IP),
the handler's status is 200 and its body is one of the two renderings of the
assembled record, so no failure aborts the response. -/
theorem connectionHandler_always_200 (env : Env) (r : HttpRequest) :
    (connectionHandler env r).status = 200 ∧
      ((connectionHandler env r).body = env.encodeJSON (buildDetails env r) ∨
        (connectionHandler env r).body = htmlPage (env.encodeJSONIndent (buildDetails env r))) := by
  cases h : isJSONRequest r <;> simp [connectionHandler, h]

/-- C2: the response is JSON — content type application/json with the encoded
record as the body — exactly when the Accept header contains the substring
"application/json" or the User-Agent contains "curl"; otherwise it is
text/html with the indented JSON substituted between the template's
<pre> and </pre> tags. -/
theorem connectionHandler_content_negotiation (env : Env) (r : HttpRequest) :
    (((connectionHandler env r).contentType = "application/json" ∧
        (connectionHandler env r).body = env.encodeJSON (buildDetails env r)) ↔
      (strContains (headerGet r "Accept") "application/json" ||
        strContains (headerGet r "User-Agent") "curl") = true) ∧
    ((strContains (headerGet r "Accept") "application/json" ||
        strContains (headerGet r "User-Agent") "curl") = false →
      (connectionHandler env r).contentType = "text/html" ∧
      (connectionHandler env r).body =
        htmlTemplateBefore ++ env.encodeJSONIndent (buildDetails env r) ++ htmlTemplateAfter) := by
  have hiff : (strContains (headerGet r "Accept") "application/json" ||
      strContains (headerGet r "User-Agent") "curl") = isJSONRequest r := rfl
  rw [hiff]
  cases h : isJSONRequest r with
  | false =>
    have hct : (connectionHandler env r).contentType = "text/html" := by
      simp [connectionHandler, h]
    have hbody : (connectionHandler env r).body =
        htmlTemplateBefore ++ env.encodeJSONIndent (buildDetails env r) ++ htmlTemplateAfter := by
      simp [connectionHandler, h, htmlPage]
    constructor
    · constructor
      · intro hc
        rw [hct] at hc
        exact absurd hc.1 (by decide)
      · intro hfalse
        exact absurd hfalse (by decide)
    · intro _
      exact ⟨hct, hbody⟩
  | true =>
    constructor
    · constructor
      · intro _
        rfl
      · intro _
        refine ⟨?hc1, ?hc2⟩ <;> simp [connectionHandler, h]
    · intro hff
      exact absurd hff (by decide)

/-- C2 witness: the concrete browser-style request takes the HTML branch. -/
theorem connectionHandler_content_negotiation_witness :
    (strContains (headerGet reqHtml "Accept") "application/json" ||
        strContains (headerGet reqHtml "User-Agent") "curl") = false ∧
      ((connectionHandler envClosed reqHtml).contentType = "text/html" ∧
        (connectionHandler envClosed reqHtml).body =
          htmlTemplateBefore ++ envClosed.encodeJSONIndent (buildDetails envClosed reqHtml) ++
            htmlTemplateAfter) :=
  ⟨by decide, (connectionHandler_content_negotiation envClosed reqHtml).2 (by decide)⟩

/-- C3 counterexample: with no X-Forwarded-For header and remote address
"[::1]:8080", the handler passes "[" to the geolocation resolver, not the
socket address stripped of its port, which is "[::1]". -/
theorem buildDetails_publicIP_v6_counterexample :
    (buildDetails envClosed reqV6).ipInfo.publicIP = "[" ∧
      callerIPSpec reqV6 = "[::1]" ∧
      (buildDetails envClosed reqV6).ipInfo.publicIP ≠ callerIPSpec reqV6 :=
  ⟨by decide, by decide, by decide⟩

/-- C3 (amended): the IP string passed to the geolocation resolver is the raw
X-Forwarded-For value when that is non-empty, and otherwise the portion of
the remote socket address before its first colon — the address stripped of
its port for IPv4 remotes, but not for bracketed IPv6 remotes. -/
theorem buildDetails_publicIP_eq (env : Env) (r : HttpRequest) :
    (buildDetails env r).ipInfo.publicIP =
      (if headerGet r "X-Forwarded-For" = "" then beforeFirstColon r.remoteAddr
       else headerGet r "X-Forwarded-For") := by
  rw [show (buildDetails env r).ipInfo = (getPublicIPInfo env.geo (callerIP r)).ipInfo from rfl]
  rw [getPublicIPInfo_publicIP]
  unfold callerIP
  by_cases hf : headerGet r "X-Forwarded-For" = ""
  · simp [hf, splitColonHead_eq]
  · simp [hf]

/-- C4: when the geo-database cannot be opened, the input fails to parse as
an IP, or the lookup errors, getPublicIPInfo returns the all-defaults record
except that public_ip carries the raw input; no error is propagated. -/
theorem getPublicIPInfo_failure_default (genv : GeoEnv) (ip : String)
    (h : (∃ e, genv.openRes = Except.error e) ∨ genv.parseIP ip = none ∨
      (∃ db parsed e, genv.openRes = Except.ok db ∧ genv.parseIP ip = some parsed ∧
        db.city parsed = Except.error e)) :
    getPublicIPInfo genv ip = { ipInfo := { publicIP := ip } } := by
  rcases h with ⟨e, he⟩ | hp | ⟨db, parsed, e, hdb, hp, hc⟩
  · simp [getPublicIPInfo, he]
  · rcases h1 : genv.openRes with e1 | db1
    · simp [getPublicIPInfo, h1]
    · simp [getPublicIPInfo, h1, hp]
  · simp [getPublicIPInfo, hdb, hp, hc]

/-- C4 witness: with the database absent, the lookup for "8.8.8.8" degrades
to the default record carrying the raw input. -/
theorem getPublicIPInfo_failure_default_witness :
    ((∃ e, envClosed.geo.openRes = Except.error e) ∨ envClosed.geo.parseIP "8.8.8.8" = none ∨
      (∃ db parsed e, envClosed.geo.openRes = Except.ok db ∧
        envClosed.geo.parseIP "8.8.8.8" = some parsed ∧ db.city parsed = Except.error e)) ∧
      getPublicIPInfo envClosed.geo "8.8.8.8" = { ipInfo := { publicIP := "8.8.8.8" } } :=
  ⟨Or.inl ⟨"no database", rfl⟩,
    getPublicIPInfo_failure_default envClosed.geo "8.8.8.8" (Or.inl ⟨"no database", rfl⟩)⟩

/-- C5: request.headers contains an entry for every header the caller sent,
with the header's values joined into one string by ";" in their original
order. -/
theorem buildDetails_headers_entry (env : Env) (r : HttpRequest) (k : String)
    (vs : List String) (hd : r.headers.Pairwise (fun a b => a.1 ≠ b.1))
    (hm : (k, vs) ∈ r.headers) :
    lookupA (buildDetails env r).request.headers k = some (String.intercalate ";" vs) := by
  rw [show (buildDetails env r).request.headers = flattenHeaders r.headers from rfl]
  exact flattenHeaders_lookup r.headers k vs hd hm

/-- C5 witness: the two-valued Accept header of the concrete request is
recorded as "text/html;application/xml". -/
theorem buildDetails_headers_entry_witness :
    reqHdrs.headers.Pairwise (fun a b => a.1 ≠ b.1) ∧
      lookupA (buildDetails envClosed reqHdrs).request.headers "Accept" =
        some (String.intercalate ";" ["text/html", "application/xml"]) :=
  ⟨by decide, buildDetails_headers_entry envClosed reqHdrs "Accept"
    ["text/html", "application/xml"] (by decide) (by decide)⟩

/-- C6: an error from net.Interfaces yields an empty mapping; otherwise, for
pairwise-distinct interface names, each interface's entry is exactly the last
address enumerated for it — and there is no entry when its address
enumeration failed (skipped silently) or produced no addresses. -/
theorem getNetworkInterfaces_spec (res : Except String (List Iface)) :
    (∀ e, res = Except.error e → getNetworkInterfaces res = []) ∧
    (∀ l, res = Except.ok l → l.Pairwise (fun a b => a.name ≠ b.name) →
      ∀ i ∈ l, lookupA (getNetworkInterfaces res) i.name = ifaceEntry i) := by
  constructor
  · intro e he
    rw [he]
    rfl
  · intro l hl hp i hi
    rw [hl]
    rw [show getNetworkInterfaces (Except.ok l) = l.foldl processIface [] from rfl]
    rw [lookupA_foldl_process_mem l [] i hp hi]
    rcases h : ifaceEntry i with _ | v <;> rfl

/-- C6 witness: on the concrete interface list, eth0 maps to the last of its
two addresses and the failing interface is skipped. -/
theorem getNetworkInterfaces_spec_witness :
    ifaceList.Pairwise (fun a b => a.name ≠ b.name) ∧
      lookupA (getNetworkInterfaces (Except.ok ifaceList)) ifaceEth.name = ifaceEntry ifaceEth :=
  ⟨by decide, (getNetworkInterfaces_spec (Except.ok ifaceList)).2 ifaceList rfl (by decide)
    ifaceEth (List.mem_cons_self _ _)⟩

/-- C7: server_ip is the first non-loopback IPv4 address in the interface
address enumeration order (all entries being *net.IPNet values, as
net.InterfaceAddrs yields), and the empty string when none qualifies or the
enumeration fails. -/
theorem serverIPOf_first_nonloopback_ipv4 (res : Except String (List IfAddr))
    (h : ∀ l, res = Except.ok l → ∀ a ∈ l, a.isIPNet = true) :
    serverIPOf res =
      (match res with
       | Except.error _ => ""
       | Except.ok l =>
         ((l.find? (fun a => !a.isLoopback && a.isIPv4)).map IfAddr.ipStr).getD "") := by
  rcases res with e | l
  · rfl
  · exact serverIPScan_eq_find l (h l rfl)

/-- C7 witness: on the concrete address list the scan skips the loopback and
the non-IPv4 entries and returns the third address. -/
theorem serverIPOf_first_nonloopback_ipv4_witness :
    (∀ l, (Except.ok ifAddrList : Except String (List IfAddr)) = Except.ok l →
        ∀ a ∈ l, a.isIPNet = true) ∧
      serverIPOf (Except.ok ifAddrList) =
        ((ifAddrList.find? (fun a => !a.isLoopback && a.isIPv4)).map IfAddr.ipStr).getD "" := by
  constructor
  · intro l hl
    injection hl with h2
    subst h2
    decide
  · exact serverIPOf_first_nonloopback_ipv4 (Except.ok ifAddrList)
      (fun l hl => by injection hl with h2; subst h2; decide)

/-- C8: for every input string and every database outcome, the organization
field of the returned geo-record is the empty string. -/
theorem getPublicIPInfo_organization_empty (genv : GeoEnv) (ip : String) :
    (getPublicIPInfo genv ip).ipInfo.organization = "" := by
  rcases h1 : genv.openRes with e | db
  · simp [getPublicIPInfo, h1]
  · rcases h2 : genv.parseIP ip with _ | parsed
    · simp [getPublicIPInfo, h1, h2]
    · rcases h3 : db.city parsed with e | record <;> simp [getPublicIPInfo, h1, h2, h3]

/-- C9 counterexample: the single registered pattern "/" matches a POST to
"/admin", so the handler does not serve only GET requests to the root
path. -/
theorem servesRequest_counterexample :
    servesRequest "POST" "/admin" = true ∧ ¬("POST" = "GET" ∧ "/admin" = "/") :=
  ⟨by decide, by decide⟩

/-- C9 (amended): the HTTP surface is the single registered pattern "/",
which imposes no method restriction and, by ServeMux subtree matching,
matches exactly the paths beginning with "/" — every request path. -/
theorem servesRequest_amended (method1 method2 path : String) :
    servesRequest method1 path = servesRequest method2 path ∧
      (servesRequest method1 path = true ↔ path.toList.headD ' ' = '/') := by
  constructor
  · rfl
  · unfold servesRequest patternMatches
    rw [if_pos (by decide)]
    rw [show ("/" : String).toList = ['/'] from by decide]
    cases hp : path.toList with
    | nil => decide
    | cons x xs =>
      simp only [List.isPrefixOf, Bool.and_true, beq_iff_eq, List.headD_cons]
      exact eq_comm

/-- C10: when the X-Forwarded-For header is present but its value is the
empty string, the caller IP is derived from the remote socket address, and
removing the header entirely leaves the resolved public_ip unchanged. -/
theorem xff_empty_like_absent (env : Env) (r : HttpRequest) (vs : List String)
    (h1 : lookupA r.headers "X-Forwarded-For" = some vs) (h2 : vs.headD "" = "") :
    (buildDetails env r).ipInfo.publicIP = splitColonHead r.remoteAddr ∧
      (buildDetails env
          { r with headers := removeHdr r.headers "X-Forwarded-For" }).ipInfo.publicIP =
        (buildDetails env r).ipInfo.publicIP := by
  have hget : headerGet r "X-Forwarded-For" = "" := by
    unfold headerGet
    rw [h1]
    exact h2
  have e1 : (buildDetails env r).ipInfo.publicIP = callerIP r := by
    rw [show (buildDetails env r).ipInfo = (getPublicIPInfo env.geo (callerIP r)).ipInfo from rfl,
      getPublicIPInfo_publicIP]
  have e2 : callerIP r = splitColonHead r.remoteAddr := by
    unfold callerIP
    simp [hget]
  have hget2 : headerGet { r with headers := removeHdr r.headers "X-Forwarded-For" }
      "X-Forwarded-For" = "" := by
    unfold headerGet
    rw [show ({ r with headers := removeHdr r.headers "X-Forwarded-For" } : HttpRequest).headers
        = removeHdr r.headers "X-Forwarded-For" from rfl]
    rw [lookupA_removeHdr]
  have e3 : callerIP { r with headers := removeHdr r.headers "X-Forwarded-For" }
      = splitColonHead r.remoteAddr := by
    unfold callerIP
    simp [hget2]
  constructor
  · rw [e1, e2]
  · rw [show (buildDetails env
          { r with headers := removeHdr r.headers "X-Forwarded-For" }).ipInfo
        = (getPublicIPInfo env.geo
            (callerIP { r with headers := removeHdr r.headers "X-Forwarded-For" })).ipInfo
        from rfl,
      getPublicIPInfo_publicIP, e3, e1, e2]

/-- C10 witness: the concrete request carrying an empty X-Forwarded-For value
resolves its caller IP from the socket address, exactly as without the
header. -/
theorem xff_empty_like_absent_witness :
    lookupA reqXffEmpty.headers "X-Forwarded-For" = some [""] ∧
      ((buildDetails envClosed reqXffEmpty).ipInfo.publicIP =
          splitColonHead reqXffEmpty.remoteAddr ∧
        (buildDetails envClosed
            { reqXffEmpty with
              headers := removeHdr reqXffEmpty.headers "X-Forwarded-For" }).ipInfo.publicIP =
          (buildDetails envClosed reqXffEmpty).ipInfo.publicIP) :=
  ⟨by decide, xff_empty_like_absent envClosed reqXffEmpty [""] (by decide) rfl⟩

end ConnApp
